import Mathlib

/-!
Verification of the news-ingestion subsystem of the newsAgg server.

The definitions below are a shallow embedding of the JavaScript source:
the cron/manual run guard (the module-level `isRunning` flag), the
orchestrator `ingestNews` (category batching, per-batch pagination with a
3-page cap, inter-page and inter-batch delays), the store adapter
`upsertArticles` (normalization of raw upstream records and bulk upsert
keyed by `article_id`), and the date handling used by normalization.

External collaborators are modelled explicitly:
the upstream HTTP client is an oracle function from request parameters to
either a transport error or a payload; the MongoDB collection is an
association list keyed by `article_id`; observable effects (fetches,
bulk writes, sleeps, error logs) are collected in an event trace.
-/

/-- JavaScript truthiness of an optional string value (`undefined` and the
empty string are falsy, every other string is truthy). -/
def jsTruthyStr : Option String → Bool
  | some s => !(s == "")
  | none => false

/-- The JavaScript idiom `v || d` for an optional string configuration
value with a string default. -/
def jsOrDefault : Option String → String → String
  | some s, d => if s == "" then d else s
  | none, d => d

/-- The JavaScript idiom `v || null` on an optional string field: a missing
value and the empty string both become `null` (here `none`). -/
def jsStrOr : Option String → Option String
  | some s => if s == "" then none else some s
  | none => none

/-- The JavaScript idiom `v || null` on an optional numeric field: a missing
value and `0` both become `null` (here `none`). -/
def jsNumOr : Option Int → Option Int
  | some n => if n == 0 then none else some n
  | none => none

/-! ### Category list parsing and batching (`ingestNews`, configuration step)

The source reads `NEWS_FETCH_CATEGORIES`, splits on `','`, trims each
entry and drops empty entries, then chunks the resulting list into groups
of at most `CATEGORY_BATCH_SIZE = 5`.
-/

/-- Characters treated as trimmable whitespace by `String.prototype.trim`
(restricted to the ASCII whitespace actually relevant here). -/
def isJsWhitespace (c : Char) : Bool :=
  c == ' ' || c == '\t' || c == '\n' || c == '\r'

/-- JavaScript `String.prototype.trim` on the character list of a string. -/
def jsTrimChars (cs : List Char) : List Char :=
  ((cs.dropWhile isJsWhitespace).reverse.dropWhile isJsWhitespace).reverse

/-- JavaScript `String.prototype.trim`. -/
def jsTrim (s : String) : String :=
  String.mk (jsTrimChars s.data)

/-- Helper for `jsSplitComma`: accumulates the current segment (reversed). -/
def splitCommaAux : List Char → List Char → List String
  | [], acc => [String.mk acc.reverse]
  | c :: rest, acc =>
    if c == ',' then String.mk acc.reverse :: splitCommaAux rest []
    else splitCommaAux rest (c :: acc)

/-- JavaScript `s.split(',')`: splits at every comma; the empty string
yields `[""]`, and adjacent commas yield empty segments. -/
def jsSplitComma (s : String) : List String :=
  splitCommaAux s.data []

/-- The category-list parsing step of `ingestNews`:
`(cfg).split(',').map((c) => c.trim()).filter(Boolean)`. -/
def parseCategories (s : String) : List String :=
  ((jsSplitComma s).map jsTrim).filter (fun c => !(c == ""))

/-- The per-request category limit, `CATEGORY_BATCH_SIZE` in the source. -/
def CATEGORY_BATCH_SIZE : Nat := 5

/-- Helper for `chunkCategories`. The source loop
`for (let i = 0; i < allCategories.length; i += 5)` pushes
`allCategories.slice(i, i + 5)` for each step; it is modelled by a
recursion whose fuel starts at the list length (an upper bound on the
number of loop iterations), taking 5 elements per step. -/
def chunkCategoriesAux : Nat → List String → List (List String)
  | _, [] => []
  | 0, _ :: _ => []
  | fuel + 1, c :: cs =>
    (c :: cs).take CATEGORY_BATCH_SIZE ::
      chunkCategoriesAux fuel ((c :: cs).drop CATEGORY_BATCH_SIZE)

/-- The category chunking loop of `ingestNews`: partitions the category
list into successive slices of at most 5, in order. -/
def chunkCategories (l : List String) : List (List String) :=
  chunkCategoriesAux l.length l

/-- Concatenation of the batches back into a single category list (used to
state that chunking is a partition). -/
def flattenBatches : List (List String) → List String
  | [] => []
  | b :: bs => b ++ flattenBatches bs

/-! ### Date parsing (`upsertArticles`, pubDate handling)

The source turns a raw `pubDate` string into a JS `Date` via
`new Date(String(article.pubDate).replace(' ', 'T') + 'Z')` and keeps the
result only when it is a valid date. `new Date` on a string is a platform
function; it is modelled here by the ECMAScript Date Time String Format
restricted to the full `YYYY-MM-DDTHH:mm:ssZ` shape (the only shape the
transformed upstream format can produce), with out-of-range calendar
components rejected, and the instant is represented as seconds since the
Unix epoch. -/

/-- Numeric value of a decimal digit character. -/
def digitVal (c : Char) : Nat := c.toNat - 48

/-- Value of a two-digit decimal field. -/
def d2 (a b : Char) : Nat := 10 * digitVal a + digitVal b

/-- Value of a four-digit decimal field. -/
def d4 (a b c d : Char) : Nat :=
  1000 * digitVal a + 100 * digitVal b + 10 * digitVal c + digitVal d

/-- Gregorian leap-year rule. -/
def isLeapYear (y : Nat) : Bool :=
  (y % 4 == 0 && y % 100 != 0) || y % 400 == 0

/-- Number of days in a month of the proleptic Gregorian calendar. -/
def daysInMonth (y m : Nat) : Nat :=
  if m == 2 then (if isLeapYear y then 29 else 28)
  else if m == 4 || m == 6 || m == 9 || m == 11 then 30
  else 31

/-- Days from 1970-01-01 to the given civil date (standard civil-from-days
conversion on the proleptic Gregorian calendar). -/
def daysFromCivil (y m d : Int) : Int :=
  let y' := if m ≤ 2 then y - 1 else y
  let era := (if 0 ≤ y' then y' else y' - 399) / 400
  let yoe := y' - era * 400
  let mp := (m + 9) % 12
  let doy := (153 * mp + 2) / 5 + d - 1
  let doe := yoe * 365 + yoe / 4 - yoe / 100 + doy
  era * 146097 + doe - 719468

/-- Seconds since the Unix epoch of a UTC date-time given by components. -/
def utcEpochSeconds (y mo d h mi s : Nat) : Int :=
  daysFromCivil (Int.ofNat y) (Int.ofNat mo) (Int.ofNat d) * 86400 +
    (Int.ofNat h) * 3600 + (Int.ofNat mi) * 60 + (Int.ofNat s)

/-- Calendar-component validity used by the date model: month 1..12 and a
day that exists in that month. -/
def dateOk (y mo d : Nat) : Bool :=
  1 ≤ mo && mo ≤ 12 && 1 ≤ d && d ≤ daysInMonth y mo

/-- Time-component validity of the ECMAScript format: `hh:mm:ss` with
hours 0..23, or the special end-of-day `24:00:00`. -/
def timeOk (h mi s : Nat) : Bool :=
  (h ≤ 23 || (h == 24 && mi == 0 && s == 0)) && mi ≤ 59 && s ≤ 59

/-- Modelled `new Date(iso)` for the `YYYY-MM-DDTHH:mm:ssZ` shape: returns
the epoch seconds of the UTC instant, or `none` for anything unparseable
(wrong shape, non-digits, or out-of-range components). -/
def parseIsoUtcChars (cs : List Char) : Option Int :=
  match cs with
  | [y1, y2, y3, y4, '-', m1, m2, '-', dd1, dd2, 'T',
     h1, h2, ':', n1, n2, ':', sc1, sc2, 'Z'] =>
    if y1.isDigit && y2.isDigit && y3.isDigit && y4.isDigit &&
        m1.isDigit && m2.isDigit && dd1.isDigit && dd2.isDigit &&
        h1.isDigit && h2.isDigit && n1.isDigit && n2.isDigit &&
        sc1.isDigit && sc2.isDigit then
      let y := d4 y1 y2 y3 y4
      let mo := d2 m1 m2
      let d := d2 dd1 dd2
      let h := d2 h1 h2
      let mi := d2 n1 n2
      let s := d2 sc1 sc2
      if dateOk y mo d && timeOk h mi s then
        some (utcEpochSeconds y mo d h mi s)
      else none
    else none
  | _ => none

/-- JavaScript `s.replace(' ', 'T')` with a string pattern: replaces only
the first occurrence of the space. -/
def replaceFirstSpaceT : List Char → List Char
  | [] => []
  | c :: rest => if c == ' ' then 'T' :: rest else c :: replaceFirstSpaceT rest

/-- The pubDate conversion of `upsertArticles`:
`new Date(String(article.pubDate).replace(' ', 'T') + 'Z')`, keeping the
epoch value only when the date is valid. -/
def parsePubDate (s : String) : Option Int :=
  parseIsoUtcChars (replaceFirstSpaceT s.data ++ ['Z'])

/-- Components of a string in the upstream `YYYY-MM-DD HH:mm:ss` shape
(space separator); `none` when the string does not have that shape. -/
def spaceComponents (s : String) : Option (Nat × Nat × Nat × Nat × Nat × Nat) :=
  match s.data with
  | [y1, y2, y3, y4, '-', m1, m2, '-', dd1, dd2, ' ',
     h1, h2, ':', n1, n2, ':', sc1, sc2] =>
    if y1.isDigit && y2.isDigit && y3.isDigit && y4.isDigit &&
        m1.isDigit && m2.isDigit && dd1.isDigit && dd2.isDigit &&
        h1.isDigit && h2.isDigit && n1.isDigit && n2.isDigit &&
        sc1.isDigit && sc2.isDigit then
      some (d4 y1 y2 y3 y4, d2 m1 m2, d2 dd1 dd2, d2 h1 h2, d2 n1 n2, d2 sc1 sc2)
    else none
  | _ => none

/-- Validity of an upstream date string in the documented
`YYYY-MM-DD HH:mm:ss` format: correct shape, digits, in-range calendar
date and in-range time of day. -/
def validSpaceDateTime (s : String) : Bool :=
  match spaceComponents s with
  | some (y, mo, d, h, mi, ss) =>
    dateOk y mo d && h ≤ 23 && mi ≤ 59 && ss ≤ 59
  | none => false

/-! ### Data model: raw upstream records and stored Articles -/

/-- A raw record as returned by the upstream news API. Every field other
than `article_id` may be absent; array-valued fields are optional lists,
`sentiment_stats` is an opaque structured value modelled as a string. -/
structure RawArticle where
  article_id : String
  title : Option String
  link : Option String
  keywords : Option (List String)
  creator : Option (List String)
  video_url : Option String
  description : Option String
  content : Option String
  pubDate : Option String
  pubDateTZ : Option String
  image_url : Option String
  source_id : Option String
  source_name : Option String
  source_url : Option String
  source_icon : Option String
  source_priority : Option Int
  country : Option (List String)
  category : Option (List String)
  language : Option String
  ai_tag : Option (List String)
  sentiment : Option String
  sentiment_stats : Option String
  ai_region : Option (List String)
  ai_org : Option (List String)
  duplicate : Option Bool
  datatype : Option String
deriving DecidableEq

/-- The stored field set written by the `$set` document of
`upsertArticles`, in source order. `pubDate` holds the parsed instant as
epoch seconds. -/
structure Article where
  title : Option String
  link : Option String
  keywords : List String
  creator : List String
  video_url : Option String
  description : Option String
  content : Option String
  pubDate : Option Int
  pubDateTZ : Option String
  image_url : Option String
  source_id : Option String
  source_name : Option String
  source_url : Option String
  source_icon : Option String
  source_priority : Option Int
  country : List String
  category : List String
  language : Option String
  ai_tag : List String
  sentiment : Option String
  sentiment_stats : Option String
  ai_region : List String
  ai_org : List String
  duplicate : Bool
  datatype : Option String
deriving DecidableEq

/-- The pubDate branch of `upsertArticles`: the conversion runs only when
`article.pubDate` is truthy, and an unparseable value yields `null`. -/
def parsePubDateField : Option String → Option Int
  | some s => if s == "" then none else parsePubDate s
  | none => none

/-- The per-record field mapping of the `$set` document built by
`upsertArticles`: arrays default to the empty list, scalars default to the
explicit `null` marker, `duplicate` defaults to `false`, and `pubDate` is
the parsed instant. -/
def normalizeArticle (a : RawArticle) : Article where
  title := a.title
  link := a.link
  keywords := a.keywords.getD []
  creator := a.creator.getD []
  video_url := jsStrOr a.video_url
  description := jsStrOr a.description
  content := jsStrOr a.content
  pubDate := parsePubDateField a.pubDate
  pubDateTZ := jsStrOr a.pubDateTZ
  image_url := jsStrOr a.image_url
  source_id := jsStrOr a.source_id
  source_name := jsStrOr a.source_name
  source_url := jsStrOr a.source_url
  source_icon := jsStrOr a.source_icon
  source_priority := jsNumOr a.source_priority
  country := a.country.getD []
  category := a.category.getD []
  language := jsStrOr a.language
  ai_tag := a.ai_tag.getD []
  sentiment := jsStrOr a.sentiment
  sentiment_stats := jsStrOr a.sentiment_stats
  ai_region := a.ai_region.getD []
  ai_org := a.ai_org.getD []
  duplicate := a.duplicate.getD false
  datatype := jsStrOr a.datatype

/-! ### Store adapter: the Article collection and bulk upsert -/

/-- The Article collection, modelled as an association list keyed by the
unique `article_id`. -/
abbrev Store := List (String × Article)

/-- Lookup of a document by `article_id`. -/
def lookupStore : Store → String → Option Article
  | [], _ => none
  | (k, v) :: rest, key => if k == key then some v else lookupStore rest key

/-- Replacement of the tracked field set of the document stored under an
existing `article_id` (the `updateOne` path when the filter matches). -/
def updateStore : Store → String → Article → Store
  | [], _, _ => []
  | (k, v) :: rest, key, a =>
    if k == key then (k, a) :: rest else (k, v) :: updateStore rest key a

/-- Log messages emitted through `logger.error` on the paths the claims
mention. -/
inductive LogMsg where
  | noApiKey
  | apiError (categoryParam : String) (payloadStatus : String)
  | httpError (status : Nat) (body : String)
  | ingestError (message : String)
deriving DecidableEq

/-- Observable effects of a run, collected in order: upstream fetches,
bulk writes to the store, rate-limit sleeps, error log lines. -/
inductive Event where
  | fetchCall (language categoryParam : String) (page : Option String)
  | bulkWrite (opsCount : Nat)
  | sleep (ms : Nat)
  | log (msg : LogMsg)
deriving DecidableEq

/-- Result of one `upsertArticles` call: the new store, the upserted and
modified counts reported by `bulkWrite`, and the store-interaction
events. -/
structure UpsertResult where
  store : Store
  upserted : Nat
  modified : Nat
  events : List Event
deriving DecidableEq

/-- Case analysis on an `Option`, as an ordinary function (used instead of
inline pattern matching so proofs can rewrite with a scrutinee equation). -/
def optionCase {α β : Type} (x : Option α) (noneBranch : β)
    (someBranch : α → β) : β :=
  match x with
  | none => noneBranch
  | some a => someBranch a

/-- Case analysis on an `Except`, as an ordinary function (used instead of
inline pattern matching so proofs can rewrite with a scrutinee equation). -/
def exceptCase {ε α β : Type} (x : Except ε α) (errBranch : ε → β)
    (okBranch : α → β) : β :=
  match x with
  | .error e => errBranch e
  | .ok a => okBranch a

/-- One `updateOne ... upsert: true` operation keyed by `article_id`: a
missing key inserts the normalized record (counted in `upsertedCount`), an
existing key has its tracked field set replaced (counted in
`modifiedCount` when the stored document actually changes). -/
def upsertOne (store : Store) (r : RawArticle) : Store × Nat × Nat :=
  let a := normalizeArticle r
  optionCase (lookupStore store r.article_id)
    (store ++ [(r.article_id, a)], 1, 0)
    (fun old => (updateStore store r.article_id a, 0, if a = old then 0 else 1))

/-- The `upsertArticles` service: empty input returns `{0, 0}` without
touching the store; otherwise every record is turned into an upsert
operation and the batch is applied, reporting aggregate counts. -/
def upsertArticles : List RawArticle → Store → UpsertResult
  | [], store => ⟨store, 0, 0, []⟩
  | a :: rest, store =>
    let applied := (a :: rest).foldl
      (fun (acc : Store × Nat × Nat) r =>
        let step := upsertOne acc.1 r
        (step.1, acc.2.1 + step.2.1, acc.2.2 + step.2.2))
      (store, 0, 0)
    ⟨applied.1, applied.2.1, applied.2.2, [Event.bulkWrite (a :: rest).length]⟩

/-! ### Upstream client and the ingestion orchestrator (`ingestNews`) -/

/-- A transport-level failure of the upstream fetch (an axios error):
optionally an HTTP response with status and body, plus a message. -/
structure HttpErr where
  response : Option (Nat × String)
  message : String
deriving DecidableEq

/-- An upstream payload: `{status, results?, nextPage?}`. -/
structure PageData where
  status : String
  results : Option (List RawArticle)
  nextPage : Option String
deriving DecidableEq

/-- The upstream client `fetchNewsPage`, modelled as an oracle from the
request parameters (language, comma-joined category batch, optional page
token) to a transport error or a payload. -/
abbrev Fetcher := String → String → Option String → Except HttpErr PageData

/-- The per-batch page cap, `MAX_PAGES` in the source. -/
def MAX_PAGES : Nat := 3

/-- Aggregate run totals `{pages, upserted, modified}`. -/
structure Totals where
  pages : Nat
  upserted : Nat
  modified : Nat
deriving DecidableEq

/-- The all-zero totals. -/
def Totals.zero : Totals := ⟨0, 0, 0⟩

/-- Pointwise addition of totals. -/
def Totals.add (a b : Totals) : Totals :=
  ⟨a.pages + b.pages, a.upserted + b.upserted, a.modified + b.modified⟩

/-- Decidable equality of `Except` values with decidable components. -/
instance exceptDecEq {ε α : Type} [DecidableEq ε] [DecidableEq α] :
    DecidableEq (Except ε α)
  | .error a, .error b =>
    if h : a = b then .isTrue (by rw [h]) else .isFalse (by simp [h])
  | .error _, .ok _ => .isFalse (by simp)
  | .ok _, .error _ => .isFalse (by simp)
  | .ok a, .ok b =>
    if h : a = b then .isTrue (by rw [h]) else .isFalse (by simp [h])

/-- Result of a pagination or batch loop: whether a transport error was
thrown, the store afterwards, the totals accumulated by the completed
iterations, and the event trace. -/
structure LoopResult where
  outcome : Except HttpErr Unit
  store : Store
  totals : Totals
  events : List Event
deriving DecidableEq

/-- Result of a loop iteration after which pagination stops: one page
counted, the iteration's upsert counts, and no inter-page delay. -/
def pageStop (language categoryParam : String) (page : Option String)
    (ur : UpsertResult) : LoopResult :=
  ⟨Except.ok (), ur.store, ⟨1, ur.upserted, ur.modified⟩,
    Event.fetchCall language categoryParam page :: ur.events⟩

/-- One iteration of the do-while pagination loop: fetch the page, rethrow
a transport error, log-and-break on a non-success payload status,
otherwise upsert the results; `onToken` then decides between continuing
and stopping when a continuation token is present (the token-free case
always stops). -/
def pageStep (fetch : Fetcher) (language categoryParam : String)
    (page : Option String) (store : Store)
    (onToken : String → UpsertResult → LoopResult) : LoopResult :=
  exceptCase (fetch language categoryParam page)
    (fun e => ⟨Except.error e, store, Totals.zero,
      [Event.fetchCall language categoryParam page]⟩)
    (fun data =>
      if data.status ≠ "success" then
        ⟨Except.ok (), store, Totals.zero,
          [Event.fetchCall language categoryParam page,
           Event.log (LogMsg.apiError categoryParam data.status)]⟩
      else
        let ur := upsertArticles (data.results.getD []) store
        optionCase (jsStrOr data.nextPage)
          (pageStop language categoryParam page ur)
          (fun tok => onToken tok ur))

/-- The do-while pagination loop of `ingestNews` for one category batch.
The loop counter `pageCount` is represented by the remaining page budget
`remaining = MAX_PAGES - pageCount` (the loop is entered with
`remaining = MAX_PAGES`), so the continuation guard
`page && pageCount < MAX_PAGES` becomes: the continuation token is present
and `remaining ≥ 2`. The loop body always runs once; when it continues,
the totals of the remaining iterations are added and the 1-second
inter-page delay is recorded between the pages (the source sleeps exactly
when the guard holds). -/
def pageLoop (fetch : Fetcher) (language categoryParam : String) :
    Nat → Option String → Store → LoopResult
  | r + 2, page, store =>
    pageStep fetch language categoryParam page store (fun tok ur =>
      let rest := pageLoop fetch language categoryParam (r + 1) (some tok) ur.store
      ⟨rest.outcome, rest.store,
        Totals.add ⟨1, ur.upserted, ur.modified⟩ rest.totals,
        Event.fetchCall language categoryParam page ::
          ur.events ++ Event.sleep 1000 :: rest.events⟩)
  | _, page, store =>
    pageStep fetch language categoryParam page store
      (fun _ ur => pageStop language categoryParam page ur)

/-- The outer loop of `ingestNews` over the category batches: each batch
runs its pagination loop starting from a null page token and a fresh page
budget; a transport error aborts the remaining batches; between a batch
and a non-empty remainder the fixed 1.5-second inter-batch delay runs. -/
def batchesLoop (fetch : Fetcher) (language : String) :
    List (List String) → Store → LoopResult
  | [], store => ⟨.ok (), store, Totals.zero, []⟩
  | batch :: rest, store =>
    let r := pageLoop fetch language (String.intercalate "," batch) MAX_PAGES none store
    exceptCase r.outcome
      (fun e => ⟨Except.error e, r.store, r.totals, r.events⟩)
      (fun _ =>
        let delayEvents : List Event := if rest.isEmpty then [] else [.sleep 1500]
        let r2 := batchesLoop fetch language rest r.store
        ⟨r2.outcome, r2.store, Totals.add r.totals r2.totals,
          r.events ++ delayEvents ++ r2.events⟩)

/-- The configuration surface read by the ingestion subsystem:
`NEWSDATA_API_KEY`, `NEWS_FETCH_CATEGORIES`, `NEWS_FETCH_LANGUAGE`. -/
structure Env where
  apiKey : Option String
  categoriesCfg : Option String
  languageCfg : Option String

/-- Result of one `ingestNews` call: either the totals of a completed run
(`none` when the run was skipped for lack of an API key — the JS function
returns `undefined` there) or the propagated transport error, together
with the store afterwards and the event trace. -/
structure RunResult where
  outcome : Except HttpErr (Option Totals)
  store : Store
  events : List Event

/-- The error log line of the catch block of `ingestNews`: HTTP status and
body when the error carries a response, otherwise the error message. -/
def httpErrorLog (e : HttpErr) : Event :=
  optionCase e.response
    (Event.log (LogMsg.ingestError e.message))
    (fun resp => Event.log (LogMsg.httpError resp.1 resp.2))

/-- The `ingestNews` pipeline: a missing (or empty) API key logs and
returns immediately with no totals; otherwise the configured categories
are parsed and chunked, the batches are processed in order, and the run
either returns aggregate totals or logs and rethrows a transport error. -/
def ingestNews (env : Env) (fetch : Fetcher) (store : Store) : RunResult :=
  if jsTruthyStr env.apiKey = false then
    ⟨.ok none, store, [.log .noApiKey]⟩
  else
    let allCategories := parseCategories (jsOrDefault env.categoriesCfg "technology,business,science")
    let language := jsOrDefault env.languageCfg "en"
    let batches := chunkCategories allCategories
    let r := batchesLoop fetch language batches store
    exceptCase r.outcome
      (fun e => ⟨Except.error e, r.store, r.events ++ [httpErrorLog e]⟩)
      (fun _ => ⟨Except.ok (some r.totals), r.store, r.events⟩)

/-! ### Run guard and its two entry points (cron tick and manual trigger)

The guard is the module-level `isRunning` flag of the cron job module,
shared by the scheduled callback and `triggerManualIngestion`. -/

/-- Outcome of a guard acquisition attempt. -/
inductive AcquireOutcome where
  | acquired
  | alreadyRunning
deriving DecidableEq

/-- The guard acquisition performed by both entry points: if the flag is
set the attempt fails and the flag is untouched, otherwise the attempt
succeeds and the flag is set. -/
def tryAcquire (isRunning : Bool) : AcquireOutcome × Bool :=
  if isRunning then (.alreadyRunning, isRunning) else (.acquired, true)

/-- The guard release performed in the `finally` blocks of both entry
points: the flag is cleared unconditionally. -/
def release (_isRunning : Bool) : Bool := false

/-- Failure modes of the manual trigger: the distinct "already running"
condition, or a rethrown ingestion failure. -/
inductive TriggerError where
  | alreadyRunning
  | ingestFailed (e : HttpErr)
deriving DecidableEq

/-- Result of `triggerManualIngestion`: its outcome, the guard flag
afterwards, the store afterwards, and the event trace. -/
structure TriggerResult where
  outcome : Except TriggerError (Option Totals)
  flagAfter : Bool
  store : Store
  events : List Event

/-- The manual trigger: throws the "already running" error while the flag
is set; otherwise sets the flag, runs `ingestNews`, and clears the flag in
a `finally` block whether the run returned or threw. -/
def triggerManualIngestion (isRunning : Bool) (env : Env) (fetch : Fetcher)
    (store : Store) : TriggerResult :=
  if isRunning then ⟨.error .alreadyRunning, isRunning, store, []⟩
  else
    let r := ingestNews env fetch store
    exceptCase r.outcome
      (fun e => ⟨Except.error (TriggerError.ingestFailed e), release true,
        r.store, r.events⟩)
      (fun t => ⟨Except.ok t, release true, r.store, r.events⟩)

/-- Result of one firing of the scheduled cron callback: whether the run
was skipped because the guard was held, the guard flag afterwards, the
store afterwards, and the event trace. -/
structure CronTickResult where
  ran : Bool
  flagAfter : Bool
  store : Store
  events : List Event

/-- One firing of the scheduled callback: a held guard logs and skips the
tick entirely; otherwise the flag is set, `ingestNews` runs (its failure
is caught and logged, never rethrown), and the flag is cleared in the
`finally` block. -/
def cronTick (isRunning : Bool) (env : Env) (fetch : Fetcher)
    (store : Store) : CronTickResult :=
  if isRunning then ⟨false, isRunning, store, []⟩
  else
    let r := ingestNews env fetch store
    ⟨true, release true, r.store, r.events⟩

/-! ### Measurement helpers and concrete instances used by the theorems -/

/-- Recognizer for upstream fetch events. -/
def isFetchEvent : Event → Bool
  | .fetchCall _ _ _ => true
  | _ => false

/-- Number of upstream fetches recorded in a trace. -/
def fetchCount (evs : List Event) : Nat := evs.countP isFetchEvent

/-- Fetch stub used by witnesses that never reach the upstream client. -/
def stubFetch : Fetcher := fun _ _ _ => Except.error ⟨none, "unreachable"⟩

/-- Environment with no API credential configured. -/
def envNoKey : Env := ⟨none, none, none⟩

/-- Environment whose category list parses to the empty list (a lone
comma), with a credential present. -/
def envEmptyCategories : Env := ⟨some "key", some ",", none⟩

/-- Environment with a single configured category. -/
def envOneCategory : Env := ⟨some "key", some "technology", none⟩

/-- Environment with the six-category list of the end-to-end scenario. -/
def envSixCategories : Env :=
  ⟨some "key", some "technology,business,science,health,sports,entertainment", none⟩

/-- Fetcher that always answers one successful empty page with no
continuation token. -/
def emptyFetch : Fetcher := fun _ _ _ => Except.ok ⟨"success", some [], none⟩

/-- Fetcher that always answers a successful empty page carrying a
continuation token, so that pagination would never stop on its own. -/
def alwaysMoreFetch : Fetcher :=
  fun _ _ _ => Except.ok ⟨"success", some [], some "next"⟩

/-- A minimal raw record (only `article_id` and `title` present). -/
def rawOne : RawArticle where
  article_id := "a1"
  title := some "t"
  link := none
  keywords := none
  creator := none
  video_url := none
  description := none
  content := none
  pubDate := none
  pubDateTZ := none
  image_url := none
  source_id := none
  source_name := none
  source_url := none
  source_icon := none
  source_priority := none
  country := none
  category := none
  language := none
  ai_tag := none
  sentiment := none
  sentiment_stats := none
  ai_region := none
  ai_org := none
  duplicate := none
  datatype := none

/-- Fetcher that always reports a data-level error status. -/
def alwaysErrorStatusFetch : Fetcher :=
  fun _ _ _ => Except.ok ⟨"error", none, none⟩

/-- Fetcher whose first page succeeds with one record and a continuation
token, and whose second page reports a data-level error status. -/
def errorPage2Fetch : Fetcher := fun _ _ page =>
  match page with
  | none => Except.ok ⟨"success", some [rawOne], some "2"⟩
  | some _ => Except.ok ⟨"error", none, none⟩

/-- The transport error raised by `failPage2Fetch`. -/
def boomErr : HttpErr := ⟨some (500, "boom"), "Request failed with status code 500"⟩

/-- Fetcher whose first page succeeds with one record and a continuation
token, and whose second page fails at the transport level. -/
def failPage2Fetch : Fetcher := fun _ _ page =>
  match page with
  | none => Except.ok ⟨"success", some [rawOne], some "2"⟩
  | some _ => Except.error boomErr

/-- A raw record whose date field is already `'T'`-separated (not in the
documented space-separated upstream format). -/
def rawTSeparated : RawArticle where
  article_id := "a2"
  title := some "t"
  link := none
  keywords := none
  creator := none
  video_url := none
  description := none
  content := none
  pubDate := some "2026-02-20T17:45:00"
  pubDateTZ := none
  image_url := none
  source_id := none
  source_name := none
  source_url := none
  source_icon := none
  source_priority := none
  country := none
  category := none
  language := none
  ai_tag := none
  sentiment := none
  sentiment_stats := none
  ai_region := none
  ai_org := none
  duplicate := none
  datatype := none

/-- A stored document with non-trivial array and scalar fields, used as
the pre-existing value in the re-ingestion witness. -/
def priorArticle : Article where
  title := some "old title"
  link := some "http://old"
  keywords := ["k1", "k2"]
  creator := ["c1"]
  video_url := none
  description := some "old description"
  content := some "old content"
  pubDate := some 0
  pubDateTZ := some "UTC"
  image_url := none
  source_id := some "src"
  source_name := some "Src"
  source_url := none
  source_icon := none
  source_priority := some 5
  country := ["us"]
  category := ["tech", "science"]
  language := some "en"
  ai_tag := ["ai"]
  sentiment := some "neutral"
  sentiment_stats := none
  ai_region := []
  ai_org := []
  duplicate := true
  datatype := some "article"

/-- A raw record re-ingested under the already-stored id `"a1"`, with a
different array value and most scalars absent. -/
def rawReingest : RawArticle where
  article_id := "a1"
  title := some "new title"
  link := none
  keywords := some ["k3"]
  creator := none
  video_url := none
  description := none
  content := none
  pubDate := none
  pubDateTZ := none
  image_url := none
  source_id := none
  source_name := none
  source_url := none
  source_icon := none
  source_priority := none
  country := none
  category := none
  language := none
  ai_tag := none
  sentiment := none
  sentiment_stats := none
  ai_region := none
  ai_org := none
  duplicate := none
  datatype := none

/-! ### Helper lemmas -/

/-- Reduction of `optionCase` at `none`. -/
@[simp] theorem optionCase_none {α β : Type} (n : β) (s : α → β) :
    optionCase none n s = n := rfl

/-- Reduction of `optionCase` at `some`. -/
@[simp] theorem optionCase_some {α β : Type} (a : α) (n : β) (s : α → β) :
    optionCase (some a) n s = s a := rfl

/-- Reduction of `exceptCase` at `error`. -/
@[simp] theorem exceptCase_error {ε α β : Type} (e : ε) (f : ε → β)
    (g : α → β) : exceptCase (Except.error e) f g = f e := rfl

/-- Reduction of `exceptCase` at `ok`. -/
@[simp] theorem exceptCase_ok {ε α β : Type} (a : α) (f : ε → β)
    (g : α → β) : exceptCase (Except.ok a) f g = g a := rfl

/-- Chunking with sufficient fuel concatenates back to the input list. -/
theorem chunkCategoriesAux_flatten :
    ∀ (fuel : Nat) (l : List String), l.length ≤ fuel →
      flattenBatches (chunkCategoriesAux fuel l) = l := by
  intro fuel
  induction fuel with
  | zero =>
    intro l hl
    have : l = [] := List.eq_nil_of_length_eq_zero (Nat.le_zero.mp hl)
    subst this
    rfl
  | succ n ih =>
    intro l hl
    cases l with
    | nil => rfl
    | cons c cs =>
      have hdrop : ((c :: cs).drop CATEGORY_BATCH_SIZE).length ≤ n := by
        simp only [List.length_drop, List.length_cons, CATEGORY_BATCH_SIZE] at *
        omega
      simp only [chunkCategoriesAux, flattenBatches, ih _ hdrop,
        List.take_append_drop]

/-- Chunking with sufficient fuel produces `ceil(N/5)` batches. -/
theorem chunkCategoriesAux_length :
    ∀ (fuel : Nat) (l : List String), l.length ≤ fuel →
      (chunkCategoriesAux fuel l).length = (l.length + 4) / 5 := by
  intro fuel
  induction fuel with
  | zero =>
    intro l hl
    have : l = [] := List.eq_nil_of_length_eq_zero (Nat.le_zero.mp hl)
    subst this
    rfl
  | succ n ih =>
    intro l hl
    cases l with
    | nil => rfl
    | cons c cs =>
      have hdrop : ((c :: cs).drop CATEGORY_BATCH_SIZE).length ≤ n := by
        simp only [List.length_drop, List.length_cons, CATEGORY_BATCH_SIZE] at *
        omega
      simp only [chunkCategoriesAux, List.length_cons, ih _ hdrop,
        List.length_drop]
      simp only [CATEGORY_BATCH_SIZE]
      omega

/-! ### Claim theorems -/

/-- C1: the run guard enforces single-flight ingestion. An acquisition
attempt (by the scheduled trigger or the manual trigger, which share the
one `isRunning` flag) succeeds exactly when no run is active; while a run
is active the manual trigger fails with the "already running" error and
the cron tick skips; after any completed run — succeeded or failed — the
flag is cleared, so a subsequent acquisition succeeds. -/
theorem runGuard_single_flight :
    (∀ b, (tryAcquire b).1 = AcquireOutcome.acquired ↔ b = false) ∧
    (∀ b, release b = false) ∧
    (∀ env fetch store,
        (triggerManualIngestion true env fetch store).outcome =
            Except.error TriggerError.alreadyRunning ∧
        (triggerManualIngestion true env fetch store).store = store ∧
        (triggerManualIngestion true env fetch store).events = []) ∧
    (∀ env fetch store, (cronTick true env fetch store).ran = false) ∧
    (∀ env fetch store,
        (triggerManualIngestion false env fetch store).flagAfter = false ∧
        (cronTick false env fetch store).flagAfter = false ∧
        (cronTick false env fetch store).ran = true) ∧
    (∀ b, (tryAcquire (release b)).1 = AcquireOutcome.acquired) ∧
    (∀ env fetch store env2 fetch2 store2,
        (triggerManualIngestion
            (triggerManualIngestion false env fetch store).flagAfter
            env2 fetch2 store2).outcome ≠
          Except.error TriggerError.alreadyRunning) := by
  refine ⟨?_, ?_, ?_, ?_, ?_, ?_, ?_⟩
  · intro b
    cases b <;> simp [tryAcquire]
  · intro b
    rfl
  · intro env fetch store
    exact ⟨rfl, rfl, rfl⟩
  · intro env fetch store
    rfl
  · intro env fetch store
    refine ⟨?_, ?_, ?_⟩
    · cases h : (ingestNews env fetch store).outcome <;>
        simp [triggerManualIngestion, tryAcquire, release, h]
    · rfl
    · rfl
  · intro b
    rfl
  · intro env fetch store env2 fetch2 store2
    have hflag : (triggerManualIngestion false env fetch store).flagAfter = false := by
      cases h : (ingestNews env fetch store).outcome <;>
        simp [triggerManualIngestion, tryAcquire, release, h]
    rw [hflag]
    cases h2 : (ingestNews env2 fetch2 store2).outcome <;>
      simp [triggerManualIngestion, tryAcquire, release, h2]

/-- C2: for every configured category list of length N the orchestrator
partitions it into exactly `ceil(N/5)` batches whose concatenation is the
original list (so each category appears in exactly one batch, in the
original order); in particular the 6-item configured list yields 2
batches of sizes 5 and 1. -/
theorem category_batching_partition :
    (∀ l : List String,
        (chunkCategories l).length = (l.length + 4) / 5 ∧
        flattenBatches (chunkCategories l) = l) ∧
    chunkCategories
        (parseCategories "technology,business,science,health,sports,entertainment") =
      [["technology", "business", "science", "health", "sports"],
       ["entertainment"]] := by
  constructor
  · intro l
    exact ⟨chunkCategoriesAux_length l.length l le_rfl,
      chunkCategoriesAux_flatten l.length l le_rfl⟩
  · rfl

/-- Lookup after replacing the document stored under a present key yields
the replacement. -/
theorem lookupStore_updateStore (s : Store) (k : String) (a old : Article)
    (h : lookupStore s k = some old) :
    lookupStore (updateStore s k a) k = some a := by
  induction s with
  | nil => simp [lookupStore] at h
  | cons p rest ih =>
    cases p with
    | mk k' v =>
      by_cases hk : (k' == k) = true
      · simp [lookupStore, updateStore, hk]
      · simp only [lookupStore, updateStore, hk] at h ⊢
        simp only [Bool.false_eq_true, if_false] at h ⊢
        exact ih h

/-- C8: if the API credential is not configured, an ingestion run logs the
condition and returns immediately — no upstream fetch, no store
interaction, an empty-handed but successful result — and a manual trigger
in this state completes without observing a failure. -/
theorem missing_api_key_skips_run :
    ∀ env fetch store, jsTruthyStr env.apiKey = false →
      ingestNews env fetch store =
        ⟨Except.ok none, store, [Event.log LogMsg.noApiKey]⟩ ∧
      (triggerManualIngestion false env fetch store).outcome =
        Except.ok (none : Option Totals) := by
  intro env fetch store h
  have hrun : ingestNews env fetch store =
      ⟨Except.ok none, store, [Event.log LogMsg.noApiKey]⟩ := by
    simp [ingestNews, h]
  refine ⟨hrun, ?_⟩
  simp [triggerManualIngestion, tryAcquire, hrun]

/-- Witness for C8 at a concrete credential-free environment. -/
theorem missing_api_key_skips_run_witness :
    jsTruthyStr envNoKey.apiKey = false ∧
    (ingestNews envNoKey stubFetch [] =
        ⟨Except.ok none, [], [Event.log LogMsg.noApiKey]⟩ ∧
      (triggerManualIngestion false envNoKey stubFetch []).outcome =
        Except.ok (none : Option Totals)) :=
  ⟨rfl, missing_api_key_skips_run envNoKey stubFetch [] rfl⟩

/-- C10: when the credential is absent the run produces no totals object
at all (the JS function returns `undefined`, modelled `none`) and a manual
trigger completes successfully with a countless result, whereas a normal
run that found nothing returns an explicit zero-valued totals object. -/
theorem no_key_run_yields_no_totals :
    ∀ env fetch store, jsTruthyStr env.apiKey = false →
      (ingestNews env fetch store).outcome = Except.ok none ∧
      (triggerManualIngestion false env fetch store).outcome =
        Except.ok (none : Option Totals) ∧
      (ingestNews envEmptyCategories fetch store).outcome =
        Except.ok (some Totals.zero) := by
  intro env fetch store h
  have hrun : ingestNews env fetch store =
      ⟨Except.ok none, store, [Event.log LogMsg.noApiKey]⟩ := by
    simp [ingestNews, h]
  refine ⟨by rw [hrun], ?_, ?_⟩
  · simp [triggerManualIngestion, tryAcquire, hrun]
  · rfl

/-- Witness for C10 at a concrete credential-free environment. -/
theorem no_key_run_yields_no_totals_witness :
    jsTruthyStr envNoKey.apiKey = false ∧
    ((ingestNews envNoKey emptyFetch []).outcome = Except.ok none ∧
      (triggerManualIngestion false envNoKey emptyFetch []).outcome =
        Except.ok (none : Option Totals) ∧
      (ingestNews envEmptyCategories emptyFetch []).outcome =
        Except.ok (some Totals.zero)) :=
  ⟨rfl, no_key_run_yields_no_totals envNoKey emptyFetch [] rfl⟩

/-- C5: re-ingesting a record whose `article_id` is already stored
replaces the whole tracked field set with the new record's normalized
(possibly defaulted) values — independent of the previously stored
document, so arrays are never appended to or merged, and absent scalars
overwrite prior values with the explicit absence marker. -/
theorem upsert_full_replace :
    ∀ (store : Store) (r : RawArticle) (old : Article),
      lookupStore store r.article_id = some old →
      lookupStore (upsertArticles [r] store).store r.article_id =
        some (normalizeArticle r) ∧
      (r.description = none → (normalizeArticle r).description = none) ∧
      (normalizeArticle r).keywords = r.keywords.getD [] := by
  intro store r old h
  refine ⟨?_, ?_, rfl⟩
  · simp only [upsertArticles, List.foldl, upsertOne, h]
    exact lookupStore_updateStore store r.article_id (normalizeArticle r) old h
  · intro hd
    simp [normalizeArticle, hd, jsStrOr]

/-- Witness for C5: re-ingesting `"a1"` over a stored document with
different values replaces the whole tracked field set. -/
theorem upsert_full_replace_witness :
    lookupStore [("a1", priorArticle)] rawReingest.article_id = some priorArticle ∧
    (lookupStore (upsertArticles [rawReingest] [("a1", priorArticle)]).store
        rawReingest.article_id = some (normalizeArticle rawReingest) ∧
      (rawReingest.description = none →
        (normalizeArticle rawReingest).description = none) ∧
      (normalizeArticle rawReingest).keywords = rawReingest.keywords.getD []) :=
  ⟨rfl, upsert_full_replace [("a1", priorArticle)] rawReingest priorArticle rfl⟩

/-- A bulk-write call records no upstream fetch events. -/
theorem fetchCount_upsertArticles (articles : List RawArticle) (store : Store) :
    fetchCount (upsertArticles articles store).events = 0 := by
  cases articles <;> simp [upsertArticles, fetchCount, isFetchEvent]

/-- Adding the zero totals on the left is the identity. -/
theorem Totals.zero_add (t : Totals) : Totals.add Totals.zero t = t := by
  cases t
  simp [Totals.add, Totals.zero]

/-- Unfolding of `pageStep` when the fetch fails at the transport level. -/
theorem pageStep_fetch_error {fetch : Fetcher} {lang cat : String}
    {page : Option String} {store : Store} {e : HttpErr}
    (hf : fetch lang cat page = Except.error e)
    (onToken : String → UpsertResult → LoopResult) :
    pageStep fetch lang cat page store onToken =
      ⟨Except.error e, store, Totals.zero, [Event.fetchCall lang cat page]⟩ := by
  simp [pageStep, hf]

/-- Unfolding of `pageStep` when the payload status is not success. -/
theorem pageStep_status_error {fetch : Fetcher} {lang cat : String}
    {page : Option String} {store : Store} {d : PageData}
    (hf : fetch lang cat page = Except.ok d) (hs : d.status ≠ "success")
    (onToken : String → UpsertResult → LoopResult) :
    pageStep fetch lang cat page store onToken =
      ⟨Except.ok (), store, Totals.zero,
        [Event.fetchCall lang cat page,
         Event.log (LogMsg.apiError cat d.status)]⟩ := by
  simp [pageStep, hf, hs]

/-- Unfolding of `pageStep` on a successful page without a continuation
token: the iteration stops. -/
theorem pageStep_token_absent {fetch : Fetcher} {lang cat : String}
    {page : Option String} {store : Store} {d : PageData}
    (hf : fetch lang cat page = Except.ok d) (hs : d.status = "success")
    (hnp : jsStrOr d.nextPage = none)
    (onToken : String → UpsertResult → LoopResult) :
    pageStep fetch lang cat page store onToken =
      pageStop lang cat page (upsertArticles (d.results.getD []) store) := by
  simp [pageStep, hf, hs, hnp]

/-- Unfolding of `pageStep` on a successful page with a continuation
token: control passes to `onToken`. -/
theorem pageStep_token_present {fetch : Fetcher} {lang cat : String}
    {page : Option String} {store : Store} {d : PageData} {tok : String}
    (hf : fetch lang cat page = Except.ok d) (hs : d.status = "success")
    (hnp : jsStrOr d.nextPage = some tok)
    (onToken : String → UpsertResult → LoopResult) :
    pageStep fetch lang cat page store onToken =
      onToken tok (upsertArticles (d.results.getD []) store) := by
  simp [pageStep, hf, hs, hnp]

/-- With no remaining budget beyond the current page, the loop performs a
single stopping iteration. -/
theorem pageLoop_budget_zero (fetch : Fetcher) (lang cat : String)
    (page : Option String) (store : Store) :
    pageLoop fetch lang cat 0 page store =
      pageStep fetch lang cat page store
        (fun _ ur => pageStop lang cat page ur) := by
  simp [pageLoop]

/-- With one remaining budget unit (`pageCount + 1 = MAX_PAGES`), the loop
performs a single stopping iteration even if a token is present. -/
theorem pageLoop_budget_one (fetch : Fetcher) (lang cat : String)
    (page : Option String) (store : Store) :
    pageLoop fetch lang cat 1 page store =
      pageStep fetch lang cat page store
        (fun _ ur => pageStop lang cat page ur) := by
  simp [pageLoop]

/-- With at least two remaining budget units, a present token continues
the loop: the remaining pages are processed after the inter-page delay. -/
theorem pageLoop_budget_continue (fetch : Fetcher) (lang cat : String)
    (m : Nat) (page : Option String) (store : Store) :
    pageLoop fetch lang cat (m + 2) page store =
      pageStep fetch lang cat page store (fun tok ur =>
        let rest := pageLoop fetch lang cat (m + 1) (some tok) ur.store
        ⟨rest.outcome, rest.store,
          Totals.add ⟨1, ur.upserted, ur.modified⟩ rest.totals,
          Event.fetchCall lang cat page ::
            ur.events ++ Event.sleep 1000 :: rest.events⟩) := by
  simp [pageLoop]

/-- On a successful page without a continuation token the whole loop stops
with exactly that page, for every remaining budget. -/
theorem pageLoop_token_absent {fetch : Fetcher} {lang cat : String}
    {page : Option String} {store : Store} {d : PageData}
    (remaining : Nat)
    (hf : fetch lang cat page = Except.ok d) (hs : d.status = "success")
    (hnp : jsStrOr d.nextPage = none) :
    pageLoop fetch lang cat remaining page store =
      pageStop lang cat page (upsertArticles (d.results.getD []) store) := by
  rcases remaining with _ | _ | m
  · rw [pageLoop_budget_zero, pageStep_token_absent hf hs hnp]
  · rw [pageLoop_budget_one, pageStep_token_absent hf hs hnp]
  · rw [pageLoop_budget_continue, pageStep_token_absent hf hs hnp]

/-- A transport failure ends the whole loop at the failing fetch, for
every remaining budget. -/
theorem pageLoop_fetch_error {fetch : Fetcher} {lang cat : String}
    {page : Option String} {store : Store} {e : HttpErr}
    (remaining : Nat)
    (hf : fetch lang cat page = Except.error e) :
    pageLoop fetch lang cat remaining page store =
      ⟨Except.error e, store, Totals.zero, [Event.fetchCall lang cat page]⟩ := by
  rcases remaining with _ | _ | m
  · rw [pageLoop_budget_zero, pageStep_fetch_error hf]
  · rw [pageLoop_budget_one, pageStep_fetch_error hf]
  · rw [pageLoop_budget_continue, pageStep_fetch_error hf]

/-- A non-success payload status ends the whole loop at that page with
zero contribution, without raising, for every remaining budget. -/
theorem pageLoop_status_error {fetch : Fetcher} {lang cat : String}
    {page : Option String} {store : Store} {d : PageData}
    (remaining : Nat)
    (hf : fetch lang cat page = Except.ok d) (hs : d.status ≠ "success") :
    pageLoop fetch lang cat remaining page store =
      ⟨Except.ok (), store, Totals.zero,
        [Event.fetchCall lang cat page,
         Event.log (LogMsg.apiError cat d.status)]⟩ := by
  rcases remaining with _ | _ | m
  · rw [pageLoop_budget_zero, pageStep_status_error hf hs]
  · rw [pageLoop_budget_one, pageStep_status_error hf hs]
  · rw [pageLoop_budget_continue, pageStep_status_error hf hs]

/-- A stopping iteration over an actual upsert result records exactly one
fetch. -/
theorem fetchCount_pageStop (lang cat : String) (page : Option String)
    (l : List RawArticle) (store : Store) :
    fetchCount (pageStop lang cat page (upsertArticles l store)).events = 1 := by
  have h0 := fetchCount_upsertArticles l store
  simp only [fetchCount] at h0
  simp [pageStop, fetchCount, isFetchEvent, List.countP_cons, h0]

/-- A single iteration with a stopping continuation records exactly one
fetch, whatever the fetch outcome. -/
theorem fetchCount_pageStep_stop (fetch : Fetcher) (lang cat : String)
    (page : Option String) (store : Store) :
    fetchCount (pageStep fetch lang cat page store
        (fun _ ur => pageStop lang cat page ur)).events = 1 := by
  rcases hf : fetch lang cat page with e | data
  · rw [pageStep_fetch_error hf]
    simp [fetchCount, isFetchEvent]
  · by_cases hs : data.status = "success"
    · rcases hnp : jsStrOr data.nextPage with _ | tok
      · rw [pageStep_token_absent hf hs hnp]
        exact fetchCount_pageStop lang cat page _ store
      · rw [pageStep_token_present hf hs hnp]
        exact fetchCount_pageStop lang cat page _ store
    · rw [pageStep_status_error hf hs]
      simp [fetchCount, isFetchEvent]

/-- The pagination loop performs at most `max 1 remaining` fetches: the
mandatory first iteration of the do-while plus at most `remaining - 1`
continuations. -/
theorem fetchCount_pageLoop_le (remaining : Nat) (fetch : Fetcher)
    (lang cat : String) :
    ∀ (page : Option String) (store : Store),
      fetchCount (pageLoop fetch lang cat remaining page store).events ≤
        max 1 remaining := by
  induction remaining with
  | zero =>
    intro page store
    rw [pageLoop_budget_zero, fetchCount_pageStep_stop]
    exact le_max_left 1 0
  | succ n ih =>
    intro page store
    cases n with
    | zero =>
      rw [pageLoop_budget_one, fetchCount_pageStep_stop]
      omega
    | succ m =>
      rw [pageLoop_budget_continue]
      rcases hf : fetch lang cat page with e | data
      · rw [pageStep_fetch_error hf]
        simp [fetchCount, isFetchEvent]
      · by_cases hs : data.status = "success"
        · rcases hnp : jsStrOr data.nextPage with _ | tok
          · rw [pageStep_token_absent hf hs hnp]
            have := fetchCount_pageStop lang cat page (data.results.getD []) store
            omega
          · rw [pageStep_token_present hf hs hnp]
            have hrest := ih (some tok)
              (upsertArticles (data.results.getD []) store).store
            have h0 := fetchCount_upsertArticles (data.results.getD []) store
            simp only [fetchCount] at hrest h0 ⊢
            simp [List.countP_cons, List.countP_append, isFetchEvent, h0]
            omega
        · rw [pageStep_status_error hf hs]
          simp [fetchCount, isFetchEvent]

/-- C3: for every batch, pagination stops as soon as the continuation
token is absent or the page budget is exhausted, and hence performs at
most `MAX_PAGES = 3` fetches: the full loop from a null token makes at
most 3 fetches; a successful page without a continuation token ends the
loop after its single fetch; on the last budget unit no further fetch
happens even with a token present; and a fetcher that always supplies a
token is fetched exactly 3 times. -/
theorem pagination_page_cap :
    (∀ (fetch : Fetcher) (lang cat : String) (store : Store),
        fetchCount (pageLoop fetch lang cat MAX_PAGES none store).events ≤
          MAX_PAGES) ∧
    (∀ (fetch : Fetcher) (lang cat : String) (remaining : Nat)
        (page : Option String) (store : Store) (d : PageData),
        fetch lang cat page = Except.ok d → d.status = "success" →
        jsStrOr d.nextPage = none →
        fetchCount (pageLoop fetch lang cat remaining page store).events = 1) ∧
    (∀ (fetch : Fetcher) (lang cat : String) (page : Option String)
        (store : Store) (d : PageData) (tok : String),
        fetch lang cat page = Except.ok d → d.status = "success" →
        jsStrOr d.nextPage = some tok →
        fetchCount (pageLoop fetch lang cat 1 page store).events = 1) ∧
    fetchCount
        (pageLoop alwaysMoreFetch "en" "technology" MAX_PAGES none []).events =
      MAX_PAGES := by
  refine ⟨?_, ?_, ?_, ?_⟩
  · intro fetch lang cat store
    exact fetchCount_pageLoop_le MAX_PAGES fetch lang cat none store
  · intro fetch lang cat remaining page store d hf hs hnp
    rw [pageLoop_token_absent remaining hf hs hnp]
    exact fetchCount_pageStop lang cat page _ store
  · intro fetch lang cat page store d tok hf hs hnp
    rw [pageLoop_budget_one, pageStep_token_present hf hs hnp]
    exact fetchCount_pageStop lang cat page _ store
  · rfl

/-- Witness for C3: the hypothesis-bearing stop conditions evaluated on
concrete fetchers. -/
theorem pagination_page_cap_witness :
    fetchCount (pageLoop emptyFetch "en" "technology" MAX_PAGES none []).events = 1 ∧
    fetchCount (pageLoop alwaysMoreFetch "en" "technology" 1 none []).events = 1 :=
  ⟨pagination_page_cap.2.1 emptyFetch "en" "technology" MAX_PAGES none []
      ⟨"success", some [], none⟩ rfl rfl rfl,
    pagination_page_cap.2.2.1 alwaysMoreFetch "en" "technology" none []
      ⟨"success", some [], some "next"⟩ "next" rfl rfl rfl⟩

/-- C6 (amended): a payload with a non-success status is logged with the
batch's category parameter, aborts pagination for that batch without
raising, and the run proceeds to the remaining batches; the aborting page
itself contributes nothing, and hence a batch whose first page reports a
non-success status contributes zero to the run totals. -/
theorem api_error_aborts_batch :
    (∀ (fetch : Fetcher) (lang cat : String) (remaining : Nat)
        (page : Option String) (store : Store) (d : PageData),
        fetch lang cat page = Except.ok d → d.status ≠ "success" →
        pageLoop fetch lang cat remaining page store =
          ⟨Except.ok (), store, Totals.zero,
            [Event.fetchCall lang cat page,
             Event.log (LogMsg.apiError cat d.status)]⟩) ∧
    (∀ (fetch : Fetcher) (lang : String) (batch : List String)
        (rest : List (List String)) (store : Store) (d : PageData),
        fetch lang (String.intercalate "," batch) none = Except.ok d →
        d.status ≠ "success" →
        (batchesLoop fetch lang (batch :: rest) store).totals =
          (batchesLoop fetch lang rest store).totals ∧
        (batchesLoop fetch lang (batch :: rest) store).outcome =
          (batchesLoop fetch lang rest store).outcome ∧
        (batchesLoop fetch lang (batch :: rest) store).store =
          (batchesLoop fetch lang rest store).store ∧
        Event.log (LogMsg.apiError (String.intercalate "," batch) d.status) ∈
          (batchesLoop fetch lang (batch :: rest) store).events) := by
  constructor
  · intro fetch lang cat remaining page store d hf hs
    exact pageLoop_status_error remaining hf hs
  · intro fetch lang batch rest store d hf hs
    have h1 := @pageLoop_status_error fetch lang (String.intercalate "," batch)
      none store d MAX_PAGES hf hs
    simp only [batchesLoop, h1, exceptCase_ok, Totals.zero_add]
    simp

/-- Counterexample to C6 as stated: a batch whose second page reports a
non-success payload still contributes its first page to the run totals —
the batch contribution is not zero whenever some payload of the batch is
non-success. -/
theorem api_error_aborts_batch_counterexample :
    Event.log (LogMsg.apiError "technology" "error") ∈
      (ingestNews envOneCategory errorPage2Fetch []).events ∧
    (ingestNews envOneCategory errorPage2Fetch []).outcome =
      Except.ok (some ⟨1, 1, 0⟩) := by
  refine ⟨by decide, rfl⟩

/-- Witness for C6 at a concrete always-erroring upstream. -/
theorem api_error_aborts_batch_witness :
    (batchesLoop alwaysErrorStatusFetch "en" [["technology"], ["business"]] []).totals =
      (batchesLoop alwaysErrorStatusFetch "en" [["business"]] []).totals ∧
    (batchesLoop alwaysErrorStatusFetch "en" [["technology"], ["business"]] []).outcome =
      (batchesLoop alwaysErrorStatusFetch "en" [["business"]] []).outcome ∧
    (batchesLoop alwaysErrorStatusFetch "en" [["technology"], ["business"]] []).store =
      (batchesLoop alwaysErrorStatusFetch "en" [["business"]] []).store ∧
    Event.log (LogMsg.apiError (String.intercalate "," ["technology"]) "error") ∈
      (batchesLoop alwaysErrorStatusFetch "en" [["technology"], ["business"]] []).events ∧
    pageLoop alwaysErrorStatusFetch "en" "technology" MAX_PAGES none [] =
      ⟨Except.ok (), [], Totals.zero,
        [Event.fetchCall "en" "technology" none,
         Event.log (LogMsg.apiError "technology" "error")]⟩ := by
  have h2 := api_error_aborts_batch.2 alwaysErrorStatusFetch "en" ["technology"]
    [["business"]] [] ⟨"error", none, none⟩ rfl (by decide)
  have h1 := api_error_aborts_batch.1 alwaysErrorStatusFetch "en" "technology"
    MAX_PAGES none [] ⟨"error", none, none⟩ rfl (by decide)
  exact ⟨h2.1, h2.2.1, h2.2.2.1, h2.2.2.2, h1⟩

/-- C7 (amended): a batch whose first call returns a successful empty page
with no continuation token records `pages = 1, upserted = 0, modified = 0`,
performs no store write, and inserts no inter-page delay; the fixed
inter-batch delay of 1.5 seconds still runs whenever further batches
remain. -/
theorem empty_first_page_batch :
    (∀ (fetch : Fetcher) (lang cat : String) (remaining : Nat)
        (store : Store) (d : PageData),
        fetch lang cat none = Except.ok d → d.status = "success" →
        d.results.getD [] = [] → jsStrOr d.nextPage = none →
        pageLoop fetch lang cat remaining none store =
          ⟨Except.ok (), store, ⟨1, 0, 0⟩, [Event.fetchCall lang cat none]⟩) ∧
    (∀ (fetch : Fetcher) (lang : String) (batch : List String)
        (rest : List (List String)) (store : Store),
        rest ≠ [] →
        (pageLoop fetch lang (String.intercalate "," batch) MAX_PAGES
            none store).outcome = Except.ok () →
        Event.sleep 1500 ∈ (batchesLoop fetch lang (batch :: rest) store).events) := by
  constructor
  · intro fetch lang cat remaining store d hf hs hres hnp
    rw [pageLoop_token_absent remaining hf hs hnp, hres]
    rfl
  · intro fetch lang batch rest store hrest hout
    cases rest with
    | nil => exact absurd rfl hrest
    | cons b bs =>
      simp only [batchesLoop, hout, exceptCase_ok, List.isEmpty_cons,
        List.mem_append, List.mem_cons]
      simp

/-- Counterexample to C7 as stated: with a further batch remaining, the
1.5-second inter-batch delay is inserted before moving to the next batch
even though the first batch returned a successful empty first page. -/
theorem empty_first_page_batch_counterexample :
    (ingestNews envSixCategories emptyFetch []).events =
      [Event.fetchCall "en" "technology,business,science,health,sports" none,
       Event.sleep 1500,
       Event.fetchCall "en" "entertainment" none] ∧
    Event.sleep 1500 ∈ (ingestNews envSixCategories emptyFetch []).events := by
  have h : (ingestNews envSixCategories emptyFetch []).events =
      [Event.fetchCall "en" "technology,business,science,health,sports" none,
       Event.sleep 1500,
       Event.fetchCall "en" "entertainment" none] := rfl
  exact ⟨h, by rw [h]; simp⟩

/-- Witness for C7 at the concrete empty-page fetcher. -/
theorem empty_first_page_batch_witness :
    pageLoop emptyFetch "en" "technology" MAX_PAGES none [] =
      ⟨Except.ok (), [], ⟨1, 0, 0⟩, [Event.fetchCall "en" "technology" none]⟩ ∧
    Event.sleep 1500 ∈
      (batchesLoop emptyFetch "en" [["technology"], ["business"]] []).events :=
  ⟨empty_first_page_batch.1 emptyFetch "en" "technology" MAX_PAGES []
      ⟨"success", some [], none⟩ rfl rfl rfl rfl,
    empty_first_page_batch.2 emptyFetch "en" ["technology"] [["business"]] []
      (by decide) rfl⟩

/-- C9: a transport-level upstream failure is fatal to the run: the
orchestrator logs the available status/body context (the HTTP status and
body when a response is present, the error message otherwise) and
propagates the error to its caller, whose result then carries no totals —
the pages/upserted/modified accumulated before the failure are lost, as
the concrete scenario with one successfully processed page shows. -/
theorem transport_error_fatal :
    (∀ (env : Env) (fetch : Fetcher) (store : Store) (e : HttpErr),
        jsTruthyStr env.apiKey = true →
        (batchesLoop fetch (jsOrDefault env.languageCfg "en")
            (chunkCategories (parseCategories
              (jsOrDefault env.categoriesCfg "technology,business,science")))
            store).outcome = Except.error e →
        (ingestNews env fetch store).outcome = Except.error e ∧
        httpErrorLog e ∈ (ingestNews env fetch store).events) ∧
    ((ingestNews envOneCategory failPage2Fetch []).outcome =
        Except.error boomErr ∧
      Event.bulkWrite 1 ∈ (ingestNews envOneCategory failPage2Fetch []).events ∧
      httpErrorLog boomErr ∈ (ingestNews envOneCategory failPage2Fetch []).events) := by
  constructor
  · intro env fetch store e hkey hloop
    simp only [ingestNews, hkey, Bool.true_eq_false, if_false, hloop,
      exceptCase_error]
    simp
  · refine ⟨rfl, by decide, by decide⟩

/-- Witness for C9 at the concrete page-two transport failure. -/
theorem transport_error_fatal_witness :
    (ingestNews envOneCategory failPage2Fetch []).outcome =
      Except.error boomErr ∧
    httpErrorLog boomErr ∈ (ingestNews envOneCategory failPage2Fetch []).events :=
  transport_error_fatal.1 envOneCategory failPage2Fetch [] boomErr rfl rfl

/-- A decimal digit character is not the space character. -/
theorem isDigit_beq_space (c : Char) (h : c.isDigit = true) :
    (c == ' ') = false := by
  cases hb : c == ' '
  · rfl
  · exfalso
    have hc : c = ' ' := eq_of_beq hb
    rw [hc] at h
    exact absurd h (by decide)

/-- C4 (amended): for every string in the valid `YYYY-MM-DD HH:mm:ss`
shape (digits in place, calendar date in range, time of day in range),
the pubDate conversion produces the equivalent absolute UTC instant —
the space is replaced by the date-time delimiter, the UTC marker is
appended, and the result is the epoch value of those components read as
UTC — and normalization stores exactly that instant. -/
theorem date_normalization_valid :
    ∀ (s : String) (y1 y2 y3 y4 m1 m2 dd1 dd2 h1 h2 n1 n2 sc1 sc2 : Char),
      s.data = [y1, y2, y3, y4, '-', m1, m2, '-', dd1, dd2, ' ',
                h1, h2, ':', n1, n2, ':', sc1, sc2] →
      y1.isDigit = true → y2.isDigit = true → y3.isDigit = true →
      y4.isDigit = true → m1.isDigit = true → m2.isDigit = true →
      dd1.isDigit = true → dd2.isDigit = true → h1.isDigit = true →
      h2.isDigit = true → n1.isDigit = true → n2.isDigit = true →
      sc1.isDigit = true → sc2.isDigit = true →
      dateOk (d4 y1 y2 y3 y4) (d2 m1 m2) (d2 dd1 dd2) = true →
      d2 h1 h2 ≤ 23 → d2 n1 n2 ≤ 59 → d2 sc1 sc2 ≤ 59 →
      parsePubDate s =
        some (utcEpochSeconds (d4 y1 y2 y3 y4) (d2 m1 m2) (d2 dd1 dd2)
          (d2 h1 h2) (d2 n1 n2) (d2 sc1 sc2)) ∧
      validSpaceDateTime s = true ∧
      (∀ r : RawArticle, r.pubDate = some s →
        (normalizeArticle r).pubDate =
          some (utcEpochSeconds (d4 y1 y2 y3 y4) (d2 m1 m2) (d2 dd1 dd2)
            (d2 h1 h2) (d2 n1 n2) (d2 sc1 sc2))) := by
  intro s y1 y2 y3 y4 m1 m2 dd1 dd2 h1 h2 n1 n2 sc1 sc2 hdata
    hy1 hy2 hy3 hy4 hm1 hm2 hd1 hd2 hh1 hh2 hn1 hn2 hs1 hs2 hdate hh hmi hss
  have ed : (('-' : Char) == ' ') = false := by decide
  have ht : timeOk (d2 h1 h2) (d2 n1 n2) (d2 sc1 sc2) = true := by
    simp [timeOk, decide_eq_true hh, decide_eq_true hmi, decide_eq_true hss]
  have hparse : parsePubDate s =
      some (utcEpochSeconds (d4 y1 y2 y3 y4) (d2 m1 m2) (d2 dd1 dd2)
        (d2 h1 h2) (d2 n1 n2) (d2 sc1 sc2)) := by
    unfold parsePubDate
    rw [hdata]
    simp [replaceFirstSpaceT, isDigit_beq_space y1 hy1, isDigit_beq_space y2 hy2,
      isDigit_beq_space y3 hy3, isDigit_beq_space y4 hy4,
      isDigit_beq_space m1 hm1, isDigit_beq_space m2 hm2,
      isDigit_beq_space dd1 hd1, isDigit_beq_space dd2 hd2, ed,
      parseIsoUtcChars, hy1, hy2, hy3, hy4, hm1, hm2, hd1, hd2,
      hh1, hh2, hn1, hn2, hs1, hs2, hdate, ht]
  have hcomp : spaceComponents s =
      some (d4 y1 y2 y3 y4, d2 m1 m2, d2 dd1 dd2,
        d2 h1 h2, d2 n1 n2, d2 sc1 sc2) := by
    simp [spaceComponents, hdata, hy1, hy2, hy3, hy4, hm1, hm2, hd1, hd2,
      hh1, hh2, hn1, hn2, hs1, hs2]
  refine ⟨hparse, ?_, ?_⟩
  · simp [validSpaceDateTime, hcomp, hdate, decide_eq_true hh,
      decide_eq_true hmi, decide_eq_true hss]
  · intro r hr
    have hne : (s == "") = false := by
      cases hb : s == ""
      · rfl
      · exfalso
        have : s = "" := eq_of_beq hb
        rw [this] at hdata
        simp at hdata
    simp [normalizeArticle, parsePubDateField, hr, hne, hparse]

/-- Counterexample to C4 as stated: the `'T'`-separated string
`"2026-02-20T17:45:00"` is malformed for the documented space-separated
format, yet normalization still produces a valid instant for it instead
of leaving `pubDate` absent. -/
theorem date_normalization_counterexample :
    validSpaceDateTime "2026-02-20T17:45:00" = false ∧
    parsePubDate "2026-02-20T17:45:00" =
      some (utcEpochSeconds 2026 2 20 17 45 0) ∧
    (normalizeArticle rawTSeparated).pubDate =
      some (utcEpochSeconds 2026 2 20 17 45 0) :=
  ⟨by decide, by decide, by decide⟩

/-- Witness for C4 at the concrete valid date `"2026-02-20 17:45:00"`. -/
theorem date_normalization_valid_witness :
    parsePubDate "2026-02-20 17:45:00" =
      some (utcEpochSeconds 2026 2 20 17 45 0) ∧
    validSpaceDateTime "2026-02-20 17:45:00" = true ∧
    (normalizeArticle rawOne).pubDate = none := by
  have h := date_normalization_valid "2026-02-20 17:45:00" '2' '0' '2' '6'
    '0' '2' '2' '0' '1' '7' '4' '5' '0' '0' rfl rfl rfl rfl rfl rfl rfl rfl
    rfl rfl rfl rfl rfl rfl rfl (by decide) (by decide) (by decide) (by decide)
  exact ⟨h.1, h.2.1, rfl⟩

/-- Witness for C1: a free guard is acquired, and a trigger after a
completed run is not rejected as already running. -/
theorem runGuard_single_flight_witness :
    (tryAcquire false).1 = AcquireOutcome.acquired ∧
    (triggerManualIngestion
        (triggerManualIngestion false envNoKey stubFetch []).flagAfter
        envNoKey stubFetch []).outcome ≠
      Except.error TriggerError.alreadyRunning :=
  ⟨(runGuard_single_flight.1 false).mpr rfl,
    runGuard_single_flight.2.2.2.2.2.2 envNoKey stubFetch [] envNoKey stubFetch []⟩
